import Mathlib

/-!
Verification of the q-ledger session-inference and hash-chained ledger engine.

The definitions below are a shallow embedding of `scripts/build_ledger.py` and
`scripts/metrics.py`: pure Python functions become Lean functions, Python
`datetime` instants become an integer millisecond timeline, Python floats
become exact rationals (`ℚ`), Python dicts become association lists, and
Python's stable `list.sort` becomes `List.insertionSort` (which is stable).
Library functions that the repository merely calls (hashlib, json, datetime
parsing) are modelled by deterministic executable stand-ins; each such model is
marked in its doc comment.
-/

namespace QLedger

/-- Model of `hashlib.sha256(...).hexdigest()` (Python standard library, called
by `sha256_hex` in build_ledger.py:56-57).  The digest is modelled as a
deterministic injective-looking encoding of the input string rendered through a
polynomial accumulator; the development relies only on the digest being a
deterministic function of the input string. -/
def sha256_hex (s : String) : String :=
  toString (s.data.foldl (fun h c => (h * 131 + c.toNat + 1) % (2 ^ 256)) 7)

/-- `canonical_json_hash` is defined after the JSON model below. -/
def fingerprint_hash (ip ua salt : String) : String :=
  sha256_hex (ip ++ "|" ++ ua ++ "|" ++ salt)

/-- JSON documents as built by build_ledger.py: objects are insertion-ordered
association lists, exactly like Python dicts. -/
inductive Json where
  | null : Json
  | bool : Bool → Json
  | num : Int → Json
  | str : String → Json
  | arr : List Json → Json
  | obj : List (String × Json) → Json
deriving Repr

mutual

/-- Model of `json.dumps(obj, ensure_ascii=False, sort_keys=True,
separators=(",", ":"))` as used by `canonical_json_hash`
(build_ledger.py:60-62): object keys are sorted lexicographically and no
insignificant whitespace is emitted.  Sorting the serialized entries by key is
extensionally the same as sorting the keys first and then serializing, because
serialization of a value does not depend on its position. -/
def dumps : Json → String
  | .null => "null"
  | .bool b => if b then "true" else "false"
  | .num n => toString n
  | .str s => "\"" ++ s ++ "\""
  | .arr xs => "[" ++ String.intercalate "," (dumpsArr xs) ++ "]"
  | .obj kvs =>
      let entries := (dumpsEntries kvs).insertionSort (fun a b => a.1 ≤ b.1)
      "\x7b" ++
        String.intercalate "," (entries.map (fun p => "\"" ++ p.1 ++ "\":" ++ p.2)) ++
        "\x7d"

/-- Serialize every element of a JSON array in order. -/
def dumpsArr : List Json → List String
  | [] => []
  | x :: xs => dumps x :: dumpsArr xs

/-- Serialize every value of a JSON object, keeping the keys. -/
def dumpsEntries : List (String × Json) → List (String × String)
  | [] => []
  | kv :: kvs => (kv.1, dumps kv.2) :: dumpsEntries kvs

end

/-- `canonical_json_hash` (build_ledger.py:60-62): hash of the canonical
serialization. -/
def canonical_json_hash (obj : Json) : String :=
  sha256_hex (dumps obj)

/-- Render an `Option String` the way `json.dumps` renders a possibly-`None`
Python string field. -/
def optStrJson : Option String → Json
  | none => .null
  | some s => .str s

/-- Field access on a JSON object, as Python's `d["k"]` / `d.get("k")`. -/
def Json.get? : Json → String → Option Json
  | .obj kvs, k => kvs.lookup k
  | _, _ => none

/-! ## Persistent ledger state (build_ledger.py:115-130) -/

/-- The raw contents of `state/ledger-state.json` as a record of
possibly-missing fields, mirroring the two `not in data` checks of
`load_state`. -/
structure StateFileFields where
  ledger_sequence : Option Nat
  last_ledger_hash : Option (Option String)

/-- `load_state` (build_ledger.py:115-124): a missing file yields sequence 0
and a null hash; a missing field defaults the same way.  The returned pair is
`(ledger_sequence, last_ledger_hash)` as read back by `main`
(build_ledger.py:649-650). -/
def load_state (file : Option StateFileFields) : Nat × Option String :=
  match file with
  | none => (0, none)
  | some d => (d.ledger_sequence.getD 0, d.last_ledger_hash.getD none)

/-- The JSON record that `save_state` (build_ledger.py:127-130) serializes. -/
def state_json (seq : Nat) (last_hash : Option String) : Json :=
  Json.obj [("ledger_sequence", .num seq), ("last_ledger_hash", optStrJson last_hash)]

/-- The file contents after `save_state` (build_ledger.py:127-130) completes:
`json.dump(state, f, ...)` over the opened-for-write file.  The two-space
indentation of `json.dump(..., indent=2)` is layout only and is not modelled;
what matters below is that the content is a deterministic serialization of the
state record. -/
def save_state_content (seq : Nat) (last_hash : Option String) : String :=
  dumps (state_json seq last_hash)

/-- The file contents observable if the process crashes during `save_state`:
`open(path, "w")` truncates the file to empty immediately, then the serialized
record is written front to back, so a crash can expose any prefix of the new
content (including the empty file). -/
def save_state_crash_contents (seq : Nat) (last_hash : Option String) : List String :=
  (List.range ((save_state_content seq last_hash).length + 1)).map
    (fun n => String.mk ((save_state_content seq last_hash).data.take n))

/-! ## Ledger assembly (build_ledger.py:647-698) -/

/-- The ledger document assembled by `main` (build_ledger.py:654-673).  When
`content_hash` is `none` this is the document as it stands at line 675, i.e.
the exact payload hashed by `canonical_json_hash(ledger)`; when it is `some h`
it is the document after line 676 inserted `content_hash_sha256` into the
`integrity` object.  `ingest_stats` and the scored session list enter the
document as opaque JSON values since their shape does not affect chaining. -/
def ledgerDoc (site generated export_window : String) (gap_minutes : Int)
    (input_stats sessions_json : Json) (seq : Nat) (previous_hash : Option String)
    (content_hash : Option String) : Json :=
  Json.obj [
    ("ledger_version", .str "1.1"),
    ("ledger_sequence", .num seq),
    ("site", .str site),
    ("generated_utc", .str generated),
    ("method", .obj [
      ("name", .str "ledger-derived-from-logs"),
      ("version", .str "session-inference-1.5"),
      ("session_gap_minutes", .num gap_minutes),
      ("notes", .str "sessions inferred from logs; no model identity is asserted")]),
    ("export_window", .str export_window),
    ("input_stats", input_stats),
    ("sessions_inferred", sessions_json),
    ("attestations_validated", .arr []),
    ("integrity", .obj ([
      ("previous_ledger_hash_sha256", optStrJson previous_hash),
      ("canonicalization", .str "json(sort_keys=true,separators=(\x27,\x27,\x27:\x27))")] ++
      (match content_hash with
       | none => []
       | some h => [("content_hash_sha256", .str h)])))]

/-- The chaining tail of `main` (build_ledger.py:647-698): read the prior
state, build the ledger with `sequence = prior + 1` and
`previous_ledger_hash_sha256 = prior last hash`, hash the document with the
content-hash field absent, insert the hash, and persist
`(sequence, last_hash = content_hash)`.  Returns the emitted ledger document
and the state pair handed to `save_state`. -/
def mainAssemble (site generated export_window : String) (gap_minutes : Int)
    (input_stats sessions_json : Json) (state : Nat × Option String) :
    Json × (Nat × Option String) :=
  let ledger_sequence := state.1 + 1
  let previous_hash := state.2
  let pre := ledgerDoc site generated export_window gap_minutes input_stats
    sessions_json ledger_sequence previous_hash none
  let ledger_hash := canonical_json_hash pre
  let ledger := ledgerDoc site generated export_window gap_minutes input_stats
    sessions_json ledger_sequence previous_hash (some ledger_hash)
  (ledger, (ledger_sequence, some ledger_hash))

/-! ## Input rows (build_ledger.py:41-49, 65-96, 214-256) -/

/-- `LogRow` (build_ledger.py:41-49).  Timestamps live on an integer
millisecond timeline standing in for `datetime`; every comparison the code
performs on instants is preserved by this embedding. -/
structure LogRow where
  ts : Int
  ip : String
  ua : String
  path : String
  host : String
  method : String
  status : String
deriving Repr, DecidableEq, Inhabited

/-- Python `str.strip()` on the character list (both-ends whitespace
removal). -/
def trimChars (cs : List Char) : List Char :=
  ((cs.dropWhile Char.isWhitespace).reverse.dropWhile Char.isWhitespace).reverse

/-- Python `int(raw)` on an all-digit string. -/
def digitsToNat (cs : List Char) : Nat :=
  cs.foldl (fun a c => a * 10 + (c.toNat - 48)) 0

/-- Python `s.split(sep, 1)` as the text before and after the first occurrence
of `sep`, or `none` when `sep` does not occur (so `isSome` is Python's
`sep in s`). -/
def splitFirst (sep : List Char) : List Char → Option (List Char × List Char)
  | [] => none
  | c :: cs =>
      if sep.isPrefixOf (c :: cs) then some ([], (c :: cs).drop sep.length)
      else match splitFirst sep cs with
        | none => none
        | some pr => some (c :: pr.1, pr.2)

/-- Collapse every run of consecutive slashes to a single slash: the fixpoint
of the loop `while "//" in u: u = u.replace("//", "/")`
(build_ledger.py:94-95), whose result is exactly the input with no two
adjacent slashes left and all other characters untouched. -/
def collapse_dup_slashes : List Char → List Char
  | [] => []
  | [c] => [c]
  | a :: b :: rest =>
      if a = '/' ∧ b = '/' then collapse_dup_slashes (b :: rest)
      else a :: collapse_dup_slashes (b :: rest)

/-- `normalize_path` (build_ledger.py:81-96): strip whitespace, drop a scheme
prefix, drop query and fragment, force a leading slash, collapse duplicate
slashes.  `u[u.find("/"):]` for a present slash is the suffix starting at the
first slash; `u.split("?", 1)[0]` is the prefix before the first question
mark, and likewise for `#`. -/
def normalize_path (uri : String) : String :=
  let u := trimChars uri.data
  if u = [] then ""
  else
    let u := match splitFirst [':', '/', '/'] u with
      | some pr =>
          if pr.2.any (fun c => c = '/') then pr.2.dropWhile (fun c => c ≠ '/')
          else ['/']
      | none => u
    let u := if u.any (fun c => c = '?') then u.takeWhile (fun c => c ≠ '?') else u
    let u := if u.any (fun c => c = '#') then u.takeWhile (fun c => c ≠ '#') else u
    let u := match u with
      | '/' :: _ => u
      | _ => '/' :: u
    String.mk (collapse_dup_slashes u)

/-- Modelled from the spec: `datetime.fromisoformat` is Python
standard-library code, not part of this repository.  The model accepts exactly
the form `YYYY-MM-DDTHH:MM:SS` and maps it onto the millisecond timeline
through a simplified calendar (every month 31 days, every year 12 such
months); all other inputs are parse failures.  The development only relies on
this being a deterministic partial parser whose successes are whole-second
instants. -/
def fromisoformat (s : String) : Option Int :=
  match s.data with
  | [y1, y2, y3, y4, '-', m1, m2, '-', d1, d2, 'T', h1, h2, ':', n1, n2, ':', s1, s2] =>
      if [y1, y2, y3, y4, m1, m2, d1, d2, h1, h2, n1, n2, s1, s2].all Char.isDigit then
        let dig := fun (c : Char) => (c.toNat - 48 : Int)
        let year := ((dig y1 * 10 + dig y2) * 10 + dig y3) * 10 + dig y4
        let mon := dig m1 * 10 + dig m2
        let day := dig d1 * 10 + dig d2
        let hour := dig h1 * 10 + dig h2
        let minute := dig n1 * 10 + dig n2
        let sec := dig s1 * 10 + dig s2
        some (((((year * 12 + mon) * 31 + day) * 24 + hour) * 60 + minute) * 60 * 1000
          + sec * 1000)
      else none
  | _ => none

/-- `parse_ts` (build_ledger.py:65-78): empty is an error; a pure-digit string
of length at least 12 is epoch milliseconds; a trailing `Z` marks UTC ISO; any
other string goes to `fromisoformat` directly.  Result is `none` exactly when
the Python function raises. -/
def parse_ts (ts : String) : Option Int :=
  let raw := trimChars ts.data
  if raw = [] then none
  else if raw.all Char.isDigit ∧ 12 ≤ raw.length then
    some ((digitsToNat raw : Nat) : Int)
  else if raw.getLast? = some 'Z' then fromisoformat (String.mk raw.dropLast)
  else fromisoformat (String.mk raw)

/-- One CSV record with its relevant cells already extracted by header name
(the `_get_case_insensitive` plumbing of build_ledger.py:209-211 resolves
headers; the loop body sees exactly these strings). -/
structure RawRow where
  ts : String
  ip : String
  ua : String
  path : String
  host : String
  method : String
  status : String
deriving Repr, DecidableEq

/-- The loop body of `load_rows` (build_ledger.py:233-248) over the input
records, front to back.  Returns `(rows, rows_total, rows_skipped)`: every
record counts in the total; a timestamp parse failure (the only statement in
the `try` block that can raise) counts as skipped; a record whose normalized
path is empty is dropped by the bare `continue` at build_ledger.py:243-244
without being counted as loaded or skipped; every other record becomes a
`LogRow`. -/
def load_rows_loop : List RawRow → List LogRow × Nat × Nat
  | [] => ([], 0, 0)
  | r :: rest =>
      let p := load_rows_loop rest
      match parse_ts r.ts with
      | none => (p.1, p.2.1 + 1, p.2.2 + 1)
      | some t =>
          let path := normalize_path r.path
          if path = "" then (p.1, p.2.1 + 1, p.2.2)
          else
            ({ ts := t, ip := String.mk (trimChars r.ip.data),
               ua := String.mk (trimChars r.ua.data), path := path,
               host := String.mk (trimChars r.host.data),
               method := String.mk (trimChars r.method.data),
               status := String.mk (trimChars r.status.data) } :: p.1,
             p.2.1 + 1, p.2.2)

/-- Ingestion statistics written through `stats_out`
(build_ledger.py:251-254). -/
structure IngestStats where
  rows_total : Nat
  rows_loaded : Nat
  rows_skipped : Nat
deriving Repr, DecidableEq

/-- `load_rows` (build_ledger.py:214-256): process every record, sort the
loaded rows by timestamp (Python's stable sort, modelled by stable insertion
sort), and report `rows_total`, `rows_loaded = len(rows)`, `rows_skipped`. -/
def load_rows (input : List RawRow) : List LogRow × IngestStats :=
  let p := load_rows_loop input
  (p.1.insertionSort (fun a b => a.ts ≤ b.ts),
   { rows_total := p.2.1, rows_loaded := p.1.length, rows_skipped := p.2.2 })

/-! ## Session inference (build_ledger.py:372-500) -/

/-- An inferred session as appended by `flush` (build_ledger.py:465-486).  The
nested `window_utc` and `agent_classification` dicts are flattened into
fields; `window_start`/`window_end` carry the instants whose ISO renderings
the source stores (the rendering of an instant is order-preserving, so sorting
by the instant models sorting by the rendered string). -/
structure Session where
  session_id : String
  window_start : Int
  window_end : Int
  client_fingerprint_hash : String
  confidence : ℚ
  path : List String
  path_categories : List String
  signals : List String
  confidence_level : String
  primary_signal : String
  human_readable_hypothesis : String
  warning : String
deriving Repr, DecidableEq, Inhabited

/-- Python `round(x, 2)` on the confidence value, modelled as exact rounding
to a multiple of 1/100 on ℚ (`round` rounds halves up where Python's float
rounding is round-half-even; the two agree everywhere except exact
half-hundredths, and no property below depends on the direction taken
there). -/
def round2 (x : ℚ) : ℚ := (round (x * 100) : ℚ) / 100

/-- `is_gov` (build_ledger.py:394-395): membership in the governance set, or
vacuously true when no governance allowlist was supplied. -/
def is_gov (gov_set : List String) (p : String) : Bool :=
  if gov_set.isEmpty then true else gov_set.contains p

/-- The ISO rendering of an instant stored in `window_utc` and hashed into the
session id (build_ledger.py:463-470), modelled as the decimal rendering of the
timeline value.  No claim depends on the exact text. -/
def isoTs (t : Int) : String := toString t

/-- `flush` (build_ledger.py:404-486): score a chunk of same-fingerprint
requests and build the session record; an empty chunk is not emitted.  The
signal list is appended in source order; `primary` tests
`"yaml_preference_observed" in signals`, which holds exactly when the
yaml-preference condition fired. -/
def flushSession (gov_set : List String) (path_to_category : List (String × String))
    (fp : String) : List LogRow → Option Session
  | [] => none
  | c :: rest =>
      let chunk := c :: rest
      let paths := chunk.map (fun x => x.path)
      let cats := paths.map (fun p => (path_to_category.lookup p).getD "other")
      let total := paths.length
      let gov_hits := (paths.filter (fun p => is_gov gov_set p)).length
      let revisits := total - paths.dedup.length
      let yaml_present := paths.any (fun p => p.endsWith ".yml" || p.endsWith ".yaml")
      let jsonld_present := paths.any (fun p => p.endsWith ".jsonld")
      let yaml_pref := yaml_present && !jsonld_present
      let systematic := 5 ≤ total ∧ 3 ≤ gov_hits
      let signals :=
        (if 1 ≤ gov_hits then ["governance_path_hit"] else []) ++
        (if 2 ≤ gov_hits then ["multiple_governance_hits"] else []) ++
        (if yaml_present then ["yaml_accessed"] else []) ++
        (if jsonld_present then ["jsonld_accessed"] else []) ++
        (if 0 < revisits then ["path_revisited"] else []) ++
        (if yaml_pref then ["yaml_preference_observed"] else []) ++
        (if systematic then ["systematic_governance_check"] else [])
      let ratio : ℚ := (gov_hits : ℚ) / (max total 1 : ℕ)
      let conf0 : ℚ := 0.20 + ratio * 0.55
      let conf1 := if yaml_pref then conf0 + 0.10 else conf0
      let conf2 := if systematic then conf1 + 0.10 else conf1
      let cap : ℚ := if total = 1 then 0.55 else 0.95
      let confidence := min cap (max 0.05 conf2)
      let level :=
        if total = 1 then "low"
        else if 0.75 ≤ confidence then "high"
        else if 0.50 ≤ confidence then "medium"
        else "low"
      let primary :=
        if yaml_pref then "yaml_preference"
        else if 2 ≤ gov_hits then "governance_sequence"
        else if gov_hits = 1 then "single_governance_hit"
        else "unknown"
      let start := c.ts
      let stop := (chunk.getLast (List.cons_ne_nil c rest)).ts
      some {
        session_id := (sha256_hex (fp ++ "|" ++ isoTs start ++ "|" ++ isoTs stop)).take 16,
        window_start := start,
        window_end := stop,
        client_fingerprint_hash := fp.take 24,
        confidence := round2 confidence,
        path := paths,
        path_categories := cats,
        signals := signals,
        confidence_level := level,
        primary_signal := primary,
        human_readable_hypothesis :=
          if 0.60 ≤ confidence ∧ 2 ≤ total then
            "comportement compatible avec un agent autonome"
          else "hypothese faible",
        warning := "aucune preuve cryptographique d\x27identite" }

/-- The walk of build_ledger.py:488-496 over one sorted fingerprint group:
`cur ++ [r0]` is the running session (`r0` its most recent request, so
`r0.ts` is `current[-1].ts`); a request within the gap extends it, a request
strictly beyond the gap flushes it and starts a fresh one; the pending session
is flushed at group end (build_ledger.py:497). -/
def walkGroup (gap : Int) (cur : List LogRow) (r0 : LogRow) :
    List LogRow → List (List LogRow)
  | [] => [cur ++ [r0]]
  | r :: rest =>
      if r.ts - r0.ts ≤ gap then walkGroup gap (cur ++ [r0]) r rest
      else (cur ++ [r0]) :: walkGroup gap [] r rest

/-- Split one fingerprint group into session chunks (an empty group emits
nothing, since `flush` ignores an empty `current`). -/
def splitGroup (gap : Int) : List LogRow → List (List LogRow)
  | [] => []
  | r :: rest => walkGroup gap [] r rest

/-- The `grouped[fp].append(r)` step: extend the group of `fp` if one exists,
otherwise append a new group.  Groups therefore appear in first-occurrence
order, which is exactly the iteration order of a Python dict. -/
def insertGroup (acc : List (String × List LogRow)) (fp : String) (r : LogRow) :
    List (String × List LogRow) :=
  if acc.any (fun g => g.1 = fp) then
    acc.map (fun g => if g.1 = fp then (g.1, g.2 ++ [r]) else g)
  else acc ++ [(fp, [r])]

/-- `grouped = defaultdict(list); for r in rows: grouped[fp].append(r)`
(build_ledger.py:384-387), with the `or "noip"` / `or "noua"` fallbacks for
empty strings. -/
def groupByFingerprint (salt : String) (rows : List LogRow) :
    List (String × List LogRow) :=
  rows.foldl (fun acc r =>
    insertGroup acc
      (fingerprint_hash (if r.ip = "" then "noip" else r.ip)
        (if r.ua = "" then "noua" else r.ua) salt) r) []

/-- The per-group loop plus final sort of build_ledger.py:400-500, with the
group traversal order made explicit as the order of the `groups` list: each
group is sorted by timestamp, split at gaps, flushed, and all emitted sessions
are stably sorted by window start. -/
def processGroups (gap : Int) (gov_exact_paths : List String)
    (path_to_category : List (String × String))
    (groups : List (String × List LogRow)) : List Session :=
  (groups.flatMap (fun g =>
    (splitGroup gap (g.2.insertionSort (fun a b => a.ts ≤ b.ts))).filterMap
      (flushSession gov_exact_paths path_to_category g.1))).insertionSort
    (fun a b => a.window_start ≤ b.window_start)

/-- `infer_sessions` (build_ledger.py:372-500): host filter, fingerprint
grouping in first-occurrence (Python dict) order, per-group session splitting
and scoring, final stable sort by window start.  `gap_minutes` becomes a
millisecond gap as `timedelta(minutes=...)` does. -/
def infer_sessions (rows : List LogRow) (site_host salt : String)
    (gap_minutes : Int) (gov_exact_paths : List String)
    (path_to_category : List (String × String)) : List Session :=
  let rows := if site_host ≠ "" then rows.filter (fun r => r.host = site_host) else rows
  processGroups (gap_minutes * 60 * 1000) gov_exact_paths path_to_category
    (groupByFingerprint salt rows)

/-! ## Governance scope and path categories (build_ledger.py:324-365) -/

/-- Python dict assignment `d[k] = v` on an association list: overwrite the
existing binding or append a new one. -/
def dictInsert (m : List (String × String)) (k v : String) : List (String × String) :=
  if m.any (fun kv => kv.1 = k) then
    m.map (fun kv => if kv.1 = k then (k, v) else kv)
  else m ++ [(k, v)]

/-- The inner `add` of `build_category_map` (build_ledger.py:347-350): bind
every non-empty path of a layer to its category. -/
def add_paths (m : List (String × String)) (paths : List String) (cat : String) :
    List (String × String) :=
  paths.foldl (fun m p => if p = "" then m else dictInsert m p cat) m

/-- `build_category_map` (build_ledger.py:341-365): the exact-path lookup
table, built from the named layers in source order. -/
def build_category_map (layers : List (String × List String)) :
    List (String × String) :=
  let get := fun (k : String) => (layers.lookup k).getD []
  let m := add_paths [] (get "entrypoints") "entrypoint"
  let m := add_paths m (get "policy") "policy"
  let m := add_paths m (get "q_layer") "q_layer"
  let m := add_paths m (get "canon_identity_boundaries") "canon"
  let m := add_paths m (get "constraints") "constraints"
  let m := add_paths m (get "routing_discovery") "discovery"
  let m := add_paths m (get "ontology") "ontology"
  let m := add_paths m (get "ontology_fallback") "ontology"
  let m := add_paths m (get "index") "index"
  let m := add_paths m (get "observation") "observation"
  let m := add_paths m (get "traceability") "traceability"
  let m := add_paths m (get "reporting") "reporting"
  m

/-- The closed vocabulary `build_category_map` can assign (the eleven
governance categories; unknown paths classify as `other` at lookup time). -/
def governanceCategories : List String :=
  ["entrypoint", "policy", "q_layer", "canon", "constraints", "discovery",
   "ontology", "index", "observation", "traceability", "reporting"]

/-! ## Metrics engine (metrics.py:186-462) -/

/-- The governance scope configuration restricted to the fields the metrics
claims read: the `layers` map and the `pattern` of each entry of
`expected_sequences`. -/
structure Scope where
  layers : List (String × List String)
  expected_sequences : List (List String)
deriving Repr, DecidableEq

/-- `compress_consecutive` (metrics.py:186-191): keep the first element of
every run of equal consecutive elements. -/
def compress_consecutive : List String → List String
  | [] => []
  | [x] => [x]
  | x :: y :: xs =>
      if x = y then compress_consecutive (y :: xs)
      else x :: compress_consecutive (y :: xs)

/-- `build_exact_path_to_category` (metrics.py:203-229): the metrics-side
exact path table, same layer-to-category adds as the ledger side (without the
empty-path guard the ledger side has). -/
def build_exact_path_to_category (scope : Scope) : List (String × String) :=
  let get := fun (k : String) => (scope.layers.lookup k).getD []
  let add := fun (m : List (String × String)) (paths : List String) (cat : String) =>
    paths.foldl (fun m p => dictInsert m p cat) m
  let m := add [] (get "entrypoints") "entrypoint"
  let m := add m (get "policy") "policy"
  let m := add m (get "q_layer") "q_layer"
  let m := add m (get "canon_identity_boundaries") "canon"
  let m := add m (get "constraints") "constraints"
  let m := add m (get "routing_discovery") "discovery"
  let m := add m (get "ontology") "ontology"
  let m := add m (get "ontology_fallback") "ontology"
  let m := add m (get "index") "index"
  let m := add m (get "observation") "observation"
  let m := add m (get "traceability") "traceability"
  let m := add m (get "reporting") "reporting"
  m

/-- `classify_path_with_scope` (metrics.py:232-233). -/
def classify_path_with_scope (p : String) (exact_map : List (String × String)) :
    String :=
  (exact_map.lookup p).getD "other"

/-- The scanning loop of `subsequence_match` (metrics.py:241-248): advance a
cursor through `expected` as matching elements of `seq` are found. -/
def subsequence_scan : List String → List String → Bool
  | _, [] => true
  | [], _ :: _ => false
  | c :: cs, e :: es =>
      if c = e then subsequence_scan cs es else subsequence_scan cs (e :: es)

/-- `subsequence_match` (metrics.py:236-248): does `seq` contain `expected` as
an ordered, not necessarily contiguous, subsequence (an empty pattern matches
everything). -/
def subsequence_match (seq expected : List String) : Bool :=
  if expected.isEmpty then true else subsequence_scan seq expected

/-- `normalize_categories_for_metrics` (metrics.py:251-258): drop empty and
`other` categories, then collapse consecutive duplicates. -/
def normalize_categories_for_metrics (cats : List String) : List String :=
  compress_consecutive (cats.filter (fun c => !(c = "") && !(c = "other")))

/-- `map_canon_to_constraints_for_checks` (metrics.py:294-305). -/
def map_canon_to_constraints_for_checks (cats : List String) : List String :=
  cats.map (fun c => if c = "canon" then "constraints" else c)

/-- The layer-name-to-category table of `compute_expected_patterns`
(metrics.py:273-281). -/
def layer_to_cat : List (String × String) :=
  [("entrypoints", "entrypoint"), ("policy", "policy"), ("q_layer", "q_layer"),
   ("constraints", "constraints"), ("index", "index"), ("ontology", "ontology"),
   ("content", "content")]

/-- `compute_expected_patterns` (metrics.py:261-291): the declared pattern of
the first expected sequence translated through `layer_to_cat` (unknown layer
names pass through), and the fixed governance-only fallback
`[entrypoint, constraints, ontology]`. -/
def compute_expected_patterns (scope : Option Scope) : List String × List String :=
  let expected_sequences := (scope.map (fun sc => sc.expected_sequences)).getD []
  let full := match expected_sequences with
    | [] => []
    | p :: _ => p.map (fun x => (layer_to_cat.lookup x).getD x)
  (full, ["entrypoint", "constraints", "ontology"])

/-- A ledger session as read back by the metrics engine: only `path` and
`path_categories` feed the fidelity computation. -/
structure MSession where
  path : List String
  path_categories : List String
deriving Repr, DecidableEq

/-- The classification-map fallback of compute_q_metrics (metrics.py:329-330):
an absent scope yields an empty exact map. -/
def scopeExactMap (scope : Option Scope) : List (String × String) :=
  match scope with
  | none => []
  | some sc => build_exact_path_to_category sc

/-- The per-session category list the metrics loops use
(metrics.py:337-341, 357-363): the ledger's `path_categories` when non-empty,
otherwise the paths classified through the scope map. -/
def catsOf (exact_map : List (String × String)) (s : MSession) : List String :=
  if s.path_categories.isEmpty then
    s.path.map (fun p => classify_path_with_scope p exact_map)
  else s.path_categories

/-- The first pass of `compute_q_metrics` (metrics.py:334-344): scan every
session of the ledger for a `content` category after normalization. -/
def observed_any_content (scope : Option Scope) (sessions : List MSession) : Bool :=
  sessions.any (fun s =>
    (normalize_categories_for_metrics (catsOf (scopeExactMap scope) s)).contains
      "content")

/-- The sequence-fidelity step of the main loop of `compute_q_metrics`
(metrics.py:385-399) for one session: the expected pattern used (the declared
pattern when one exists and content was observed anywhere in the ledger,
otherwise the governance-only fallback) and whether the session's normalized,
canon-remapped category list matches it as an ordered subsequence. -/
def session_fidelity (scope : Option Scope) (sessions : List MSession)
    (s : MSession) : List String × Bool :=
  let pats := compute_expected_patterns scope
  let cats_for_checks := map_canon_to_constraints_for_checks
    (normalize_categories_for_metrics (catsOf (scopeExactMap scope) s))
  if pats.1 ≠ [] ∧ observed_any_content scope sessions = true then
    (pats.1, subsequence_match cats_for_checks pats.1)
  else
    (pats.2, subsequence_match cats_for_checks pats.2)

/-! ## Concrete fixtures used by scenario conjuncts, witnesses and
counterexamples -/

/-- The spec's single-request scenario: one GET of the ledger path. -/
def singleHitRow : LogRow :=
  { ts := 1771286400000, ip := "1.2.3.4", ua := "ua",
    path := "/.well-known/q-ledger.json", host := "example.com",
    method := "GET", status := "200" }

/-- First request of the 45-minute-gap scenario. -/
def scenarioRowA : LogRow :=
  { ts := 1771286400000, ip := "1.2.3.4", ua := "ua", path := "/a",
    host := "example.com", method := "GET", status := "200" }

/-- Second request of the 45-minute-gap scenario, 45 minutes later. -/
def scenarioRowB : LogRow :=
  { ts := 1771286400000 + 45 * 60 * 1000, ip := "1.2.3.4", ua := "ua",
    path := "/a", host := "example.com", method := "GET", status := "200" }

/-- A request at the same instant as `tieRowB` but from another client. -/
def tieRowA : LogRow :=
  { ts := 0, ip := "1.2.3.4", ua := "ua", path := "/a", host := "",
    method := "", status := "" }

/-- A request at the same instant as `tieRowA` but from another client. -/
def tieRowB : LogRow :=
  { ts := 0, ip := "5.6.7.8", ua := "ub", path := "/b", host := "",
    method := "", status := "" }

/-- A CSV record with a valid timestamp and an empty path cell. -/
def emptyPathRow : RawRow :=
  { ts := "1700000000000", ip := "1.1.1.1", ua := "ua", path := "",
    host := "example.com", method := "GET", status := "200" }

/-- A CSV record that loads cleanly. -/
def goodRow : RawRow :=
  { ts := "1700000000000", ip := "1.1.1.1", ua := "ua",
    path := "/.well-known/q-ledger.json", host := "example.com",
    method := "GET", status := "200" }

/-- A scope layer map binding one policy path, for metric witnesses. -/
def witnessLayers : List (String × List String) := [("policy", ["/p"])]

/-- A ledger session carrying categories produced by `build_category_map`
over `witnessLayers`. -/
def witnessMSession : MSession := { path := ["/p"], path_categories := ["policy"] }

/-! ## Shared lemmas -/

/-- A stable sort keyed through `f` into a linear order is determined by the
multiset of elements once the keys are duplicate-free: any two permuted inputs
sort to the same list. -/
theorem insertionSort_key_eq {α β : Type} [LinearOrder β]
    (f : α → β) (l₁ l₂ : List α) (hp : l₁.Perm l₂)
    (hnd : (l₁.map f).Nodup) :
    l₁.insertionSort (fun a b => f a ≤ f b) =
      l₂.insertionSort (fun a b => f a ≤ f b) := by
  set r := fun a b => f a ≤ f b with hr
  haveI : IsTotal α r := ⟨fun a b => le_total (f a) (f b)⟩
  haveI : IsTrans α r := ⟨fun a b c hab hbc => le_trans hab hbc⟩
  have hp₁ := List.perm_insertionSort r l₁
  have hp₂ := List.perm_insertionSort r l₂
  have hs₁ := List.sorted_insertionSort r l₁
  have hs₂ := List.sorted_insertionSort r l₂
  have hperm : (l₁.insertionSort r).Perm (l₂.insertionSort r) :=
    hp₁.trans (hp.trans hp₂.symm)
  have hnd₁ : ((l₁.insertionSort r).map f).Nodup := (hp₁.map f).nodup_iff.mpr hnd
  have hnd₂ : ((l₂.insertionSort r).map f).Nodup :=
    ((hp₂.map f).nodup_iff).mpr ((hp.map f).nodup_iff.mp hnd)
  have hne₁ : (l₁.insertionSort r).Pairwise (fun a b => f a ≠ f b) :=
    List.pairwise_map.mp hnd₁
  have hne₂ : (l₂.insertionSort r).Pairwise (fun a b => f a ≠ f b) :=
    List.pairwise_map.mp hnd₂
  have hlt₁ : (l₁.insertionSort r).Sorted (fun a b => f a < f b) :=
    (hs₁.and hne₁).imp (fun h => lt_of_le_of_ne h.1 h.2)
  have hlt₂ : (l₂.insertionSort r).Sorted (fun a b => f a < f b) :=
    (hs₂.and hne₂).imp (fun h => lt_of_le_of_ne h.1 h.2)
  haveI : IsAntisymm α (fun a b => f a < f b) :=
    ⟨fun a b h h' => absurd h (lt_asymm h')⟩
  exact List.eq_of_perm_of_sorted hperm hlt₁ hlt₂

/-- `dumpsEntries` serializes each value in place. -/
theorem dumpsEntries_eq_map (l : List (String × Json)) :
    dumpsEntries l = l.map (fun kv => (kv.1, dumps kv.2)) := by
  induction l with
  | nil => rfl
  | cons kv kvs ih => simp [dumpsEntries, ih]

/-- A successful association-list lookup exhibits its binding. -/
theorem mem_of_lookup {α : Type} [DecidableEq α] {β : Type} {m : List (α × β)}
    {k : α} {v : β} (h : m.lookup k = some v) : (k, v) ∈ m := by
  induction m with
  | nil => simp [List.lookup] at h
  | cons kv m ih =>
      rw [List.lookup] at h
      by_cases hk : k = kv.1
      · subst hk
        simp only [beq_self_eq_true] at h
        injection h with h
        subst h
        exact List.mem_cons_self _ _
      · have : (k == kv.1) = false := beq_eq_false_iff_ne.mpr hk
        rw [this] at h
        exact List.mem_cons_of_mem _ (ih h)

/-- Canonical serialization is invariant under reordering of the entries of an
object whose keys are duplicate-free. -/
theorem dumps_obj_perm (l₁ l₂ : List (String × Json)) (hp : l₁.Perm l₂)
    (hnd : (l₁.map Prod.fst).Nodup) :
    dumps (Json.obj l₁) = dumps (Json.obj l₂) := by
  have hkey : ∀ l : List (String × Json),
      (dumpsEntries l).map Prod.fst = l.map Prod.fst := by
    intro l
    rw [dumpsEntries_eq_map, List.map_map]
    rfl
  have hp' : (dumpsEntries l₁).Perm (dumpsEntries l₂) := by
    rw [dumpsEntries_eq_map, dumpsEntries_eq_map]
    exact hp.map _
  have hnd' : ((dumpsEntries l₁).map Prod.fst).Nodup := by
    rw [hkey]; exact hnd
  have := insertionSort_key_eq (β := String) Prod.fst (dumpsEntries l₁)
    (dumpsEntries l₂) hp' hnd'
  simp only [dumps, this]

/-- Rounding to hundredths respects an upper bound that is itself a multiple
of a hundredth. -/
theorem round2_le (x : ℚ) (n : ℤ) (h : x ≤ n / 100) : round2 x ≤ n / 100 := by
  have h100 : x * 100 ≤ (n : ℚ) := by
    have := mul_le_mul_of_nonneg_right h (by norm_num : (0 : ℚ) ≤ 100)
    calc x * 100 ≤ (n : ℚ) / 100 * 100 := this
      _ = (n : ℚ) := by field_simp
  have hr : round (x * 100) ≤ n := by
    rw [round_eq]
    have : x * 100 + 1 / 2 ≤ (n : ℚ) + 1 / 2 := by linarith
    calc ⌊x * 100 + 1 / 2⌋ ≤ ⌊(n : ℚ) + 1 / 2⌋ := Int.floor_le_floor this
      _ = n := by
          rw [add_comm, Int.floor_add_int]
          norm_num
  rw [round2]
  have : ((round (x * 100) : ℤ) : ℚ) ≤ (n : ℚ) := Int.cast_le.mpr hr
  linarith

/-- Rounding to hundredths respects a lower bound that is itself a multiple of
a hundredth. -/
theorem round2_ge (x : ℚ) (n : ℤ) (h : n / 100 ≤ x) : n / 100 ≤ round2 x := by
  have h100 : (n : ℚ) ≤ x * 100 := by
    have := mul_le_mul_of_nonneg_right h (by norm_num : (0 : ℚ) ≤ 100)
    calc (n : ℚ) = (n : ℚ) / 100 * 100 := by field_simp
      _ ≤ x * 100 := this
  have hr : n ≤ round (x * 100) := by
    rw [round_eq]
    have : (n : ℚ) + 1 / 2 ≤ x * 100 + 1 / 2 := by linarith
    calc n = ⌊(n : ℚ) + 1 / 2⌋ := by
          rw [add_comm, Int.floor_add_int]
          norm_num
      _ ≤ ⌊x * 100 + 1 / 2⌋ := Int.floor_le_floor this
  rw [round2]
  have : (n : ℚ) ≤ ((round (x * 100) : ℤ) : ℚ) := Int.cast_le.mpr hr
  linarith

/-- Scoring facts about any session `flush` emits: the path list is the
chunk's (hence non-empty), the stored confidence is clamped into
`[0.05, 0.95]`, and a single-hit chunk is capped at `0.55` with level
`low`. -/
theorem flushSession_spec (gov_set : List String)
    (path_to_category : List (String × String)) (fp : String)
    (chunk : List LogRow) (s : Session)
    (h : flushSession gov_set path_to_category fp chunk = some s) :
    s.path = chunk.map (fun x => x.path) ∧ s.path ≠ [] ∧
      (1 / 20 : ℚ) ≤ s.confidence ∧ s.confidence ≤ 19 / 20 ∧
      (s.path.length = 1 → s.confidence ≤ 11 / 20 ∧ s.confidence_level = "low") := by
  match chunk with
  | [] => simp [flushSession] at h
  | c :: rest =>
      rw [flushSession] at h
      injection h with h
      subst h
      simp only [ne_eq, List.map_eq_nil_iff, List.cons_ne_nil, not_false_eq_true,
        true_and, List.length_map, List.length_cons]
      set total := rest.length + 1 with htotal
      set conf2 := (if ((c :: rest).map (fun x => x.path)).any
            (fun p => p.endsWith ".yml" || p.endsWith ".yaml") &&
            !((c :: rest).map (fun x => x.path)).any (fun p => p.endsWith ".jsonld") then
          0.20 + (((((c :: rest).map (fun x => x.path)).filter
            (fun p => is_gov gov_set p)).length : ℚ) / (max total 1 : ℕ)) * 0.55 + 0.10
        else
          0.20 + (((((c :: rest).map (fun x => x.path)).filter
            (fun p => is_gov gov_set p)).length : ℚ) / (max total 1 : ℕ)) * 0.55)
      refine ⟨?_, ?_, ?_⟩
      · rw [show (1 / 20 : ℚ) = ((5 : ℤ) : ℚ) / 100 by norm_num]
        apply round2_ge
        push_cast
        apply le_min
        · split <;> norm_num
        · calc (5 : ℚ) / 100 = 0.05 := by norm_num
            _ ≤ max 0.05 _ := le_max_left _ _
      · rw [show (19 / 20 : ℚ) = ((95 : ℤ) : ℚ) / 100 by norm_num]
        apply round2_le
        push_cast
        calc min (if total = 1 then (0.55 : ℚ) else 0.95) _ ≤
            (if total = 1 then (0.55 : ℚ) else 0.95) := min_le_left _ _
          _ ≤ 95 / 100 := by split <;> norm_num
      · intro h1
        have ht1 : total = 1 := h1
        constructor
        · rw [show (11 / 20 : ℚ) = ((55 : ℤ) : ℚ) / 100 by norm_num]
          apply round2_le
          push_cast
          calc min (if total = 1 then (0.55 : ℚ) else 0.95) _ ≤
              (if total = 1 then (0.55 : ℚ) else 0.95) := min_le_left _ _
            _ ≤ 55 / 100 := by rw [ht1]; norm_num
        · simp [ht1]

/-- Every session returned by `infer_sessions` was emitted by `flush` on some
chunk of some fingerprint group. -/
theorem exists_flush_of_mem (rows : List LogRow) (site_host salt : String)
    (gap_minutes : Int) (gov_exact_paths : List String)
    (path_to_category : List (String × String)) (s : Session)
    (h : s ∈ infer_sessions rows site_host salt gap_minutes gov_exact_paths
      path_to_category) :
    ∃ fp chunk, flushSession gov_exact_paths path_to_category fp chunk = some s := by
  rw [infer_sessions, processGroups] at h
  rw [List.mem_insertionSort] at h
  rw [List.mem_flatMap] at h
  obtain ⟨g, _, hg⟩ := h
  rw [List.mem_filterMap] at hg
  obtain ⟨chunk, _, hc⟩ := hg
  exact ⟨g.1, chunk, hc⟩

/-- Full characterization of the session-splitting walk: the chunks
concatenate back to the walked requests, every chunk is non-empty and
internally within-gap, consecutive chunks are separated by a strict gap
violation, and the first chunk extends the running session. -/
theorem walkGroup_spec (gap : Int) :
    ∀ (rest cur : List LogRow) (r0 : LogRow),
      List.Chain' (fun a b => b.ts - a.ts ≤ gap) (cur ++ [r0]) →
      (walkGroup gap cur r0 rest).flatten = cur ++ r0 :: rest ∧
      (∀ c ∈ walkGroup gap cur r0 rest,
        c ≠ [] ∧ List.Chain' (fun a b => b.ts - a.ts ≤ gap) c) ∧
      List.Chain'
        (fun c₁ c₂ => ∀ a ∈ c₁.getLast?, ∀ b ∈ c₂.head?, gap < b.ts - a.ts)
        (walkGroup gap cur r0 rest) ∧
      ∃ t cs, walkGroup gap cur r0 rest = (cur ++ r0 :: t) :: cs := by
  intro rest
  induction rest with
  | nil =>
      intro cur r0 hchain
      refine ⟨by simp [walkGroup], ?_, ?_, [], [], by simp [walkGroup]⟩
      · intro c hc
        rw [walkGroup] at hc
        simp only [List.mem_singleton] at hc
        subst hc
        exact ⟨by simp, hchain⟩
      · rw [walkGroup]
        exact List.chain'_singleton _
  | cons r rest ih =>
      intro cur r0 hchain
      rw [walkGroup]
      by_cases hgap : r.ts - r0.ts ≤ gap
      · rw [if_pos hgap]
        have hchain' : List.Chain' (fun a b => b.ts - a.ts ≤ gap)
            ((cur ++ [r0]) ++ [r]) := by
          rw [List.chain'_append]
          refine ⟨hchain, List.chain'_singleton _, ?_⟩
          intro x hx y hy
          rw [List.getLast?_concat] at hx
          simp only [List.head?_cons, Option.mem_some_iff] at hx hy
          subst hx; subst hy
          exact hgap
        obtain ⟨hflat, hmem, hbrk, t, cs, heq⟩ := ih (cur ++ [r0]) r hchain'
        refine ⟨by simp only [hflat]; simp, hmem, hbrk, r :: t, cs, ?_⟩
        rw [heq]
        simp
      · rw [if_neg hgap]
        have hone : List.Chain' (fun a b => b.ts - a.ts ≤ gap) (([] : List LogRow) ++ [r]) :=
          List.chain'_singleton _
        obtain ⟨hflat, hmem, hbrk, t, cs, heq⟩ := ih [] r hone
        refine ⟨?_, ?_, ?_, [], (walkGroup gap [] r rest), by simp⟩
        · simp only [List.flatten_cons, hflat]
          simp
        · intro c hc
          rcases List.mem_cons.mp hc with hc | hc
          · subst hc
            exact ⟨by simp, hchain⟩
          · exact hmem c hc
        · rw [List.chain'_cons']
          refine ⟨?_, hbrk⟩
          intro y hy
          rw [heq] at hy
          simp only [List.head?_cons, Option.mem_some_iff] at hy
          subst hy
          intro a ha b hb
          rw [List.getLast?_concat] at ha
          simp only [List.nil_append, List.head?_cons, Option.mem_some_iff] at ha hb
          subst ha; subst hb
          omega

/-- The cursor scan of `subsequence_match` recognizes exactly the ordered
(not necessarily contiguous) subsequences. -/
theorem subsequence_scan_iff :
    ∀ (seq expected : List String),
      subsequence_scan seq expected = true ↔ expected.Sublist seq := by
  intro seq
  induction seq with
  | nil =>
      intro expected
      cases expected with
      | nil => simp [subsequence_scan]
      | cons e es => simp [subsequence_scan]
  | cons c cs ih =>
      intro expected
      cases expected with
      | nil => simp [subsequence_scan]
      | cons e es =>
          rw [subsequence_scan]
          by_cases hce : c = e
          · subst hce
            rw [if_pos rfl, ih]
            constructor
            · exact fun h => h.cons₂ c
            · intro h
              cases h with
              | cons _ h => exact (List.sublist_cons_self c es).trans h
              | cons₂ _ h => exact h
          · rw [if_neg hce, ih]
            constructor
            · exact fun h => h.trans (List.sublist_cons_self c cs)
            · intro h
              cases h with
              | cons _ h => exact h
              | cons₂ _ h => exact absurd rfl hce

/-- `subsequence_match` decides ordered-subsequence containment. -/
theorem subsequence_match_iff (seq expected : List String) :
    subsequence_match seq expected = true ↔ expected.Sublist seq := by
  rw [subsequence_match]
  by_cases he : expected.isEmpty
  · rw [if_pos he]
    rw [List.isEmpty_iff] at he
    subst he
    simp
  · rw [if_neg he]
    exact subsequence_scan_iff seq expected

/-- Collapsing consecutive duplicates never invents elements. -/
theorem mem_compress_consecutive {x : String} :
    ∀ {l : List String}, x ∈ compress_consecutive l → x ∈ l := by
  intro l
  induction l with
  | nil => simp [compress_consecutive]
  | cons a l ih =>
      cases l with
      | nil => simp [compress_consecutive]
      | cons b l =>
          rw [compress_consecutive]
          intro h
          by_cases hab : a = b
          · rw [if_pos hab] at h
            exact List.mem_cons_of_mem a (ih h)
          · rw [if_neg hab] at h
            rcases List.mem_cons.mp h with h | h
            · exact h ▸ List.mem_cons_self a _
            · exact List.mem_cons_of_mem a (ih h)

/-- Normalization never invents categories. -/
theorem mem_normalize_categories {x : String} {l : List String}
    (h : x ∈ normalize_categories_for_metrics l) : x ∈ l := by
  rw [normalize_categories_for_metrics] at h
  exact List.mem_of_mem_filter (mem_compress_consecutive h)

/-- A binding of `dictInsert` is the inserted one or an original one. -/
theorem dictInsert_mem {m : List (String × String)} {k v : String}
    {kv : String × String} (h : kv ∈ dictInsert m k v) : kv.2 = v ∨ kv ∈ m := by
  rw [dictInsert] at h
  by_cases hany : m.any (fun kv => kv.1 = k)
  · rw [if_pos hany] at h
    rcases List.mem_map.mp h with ⟨kv', hkv', heq⟩
    by_cases hk : kv'.1 = k
    · rw [if_pos hk] at heq
      left
      rw [← heq]
    · rw [if_neg hk] at heq
      right
      rw [← heq]
      exact hkv'
  · rw [if_neg hany] at h
    rcases List.mem_append.mp h with h | h
    · right; exact h
    · left
      rw [List.mem_singleton.mp h]

/-- A binding produced by `add_paths` carries the added category or was
already present. -/
theorem add_paths_mem {kv : String × String} (cat : String) :
    ∀ (paths : List String) (m : List (String × String)),
      kv ∈ add_paths m paths cat → kv.2 = cat ∨ kv ∈ m := by
  intro paths
  induction paths with
  | nil => intro m h; right; exact h
  | cons p ps ih =>
      intro m h
      rw [add_paths] at h
      rw [List.foldl_cons] at h
      by_cases hp : p = ""
      · rw [if_pos hp] at h
        exact ih m h
      · rw [if_neg hp] at h
        rcases ih (dictInsert m p cat) h with h | h
        · left; exact h
        · exact dictInsert_mem h

/-- Every binding of the ledger-side category table carries one of the eleven
governance categories; in particular `content` is never assigned. -/
theorem build_category_map_mem (layers : List (String × List String))
    {kv : String × String} (h : kv ∈ build_category_map layers) :
    kv.2 ∈ governanceCategories := by
  rw [build_category_map] at h
  rcases add_paths_mem _ _ _ h with h | h
  · rw [h]; simp [governanceCategories]
  rcases add_paths_mem _ _ _ h with h | h
  · rw [h]; simp [governanceCategories]
  rcases add_paths_mem _ _ _ h with h | h
  · rw [h]; simp [governanceCategories]
  rcases add_paths_mem _ _ _ h with h | h
  · rw [h]; simp [governanceCategories]
  rcases add_paths_mem _ _ _ h with h | h
  · rw [h]; simp [governanceCategories]
  rcases add_paths_mem _ _ _ h with h | h
  · rw [h]; simp [governanceCategories]
  rcases add_paths_mem _ _ _ h with h | h
  · rw [h]; simp [governanceCategories]
  rcases add_paths_mem _ _ _ h with h | h
  · rw [h]; simp [governanceCategories]
  rcases add_paths_mem _ _ _ h with h | h
  · rw [h]; simp [governanceCategories]
  rcases add_paths_mem _ _ _ h with h | h
  · rw [h]; simp [governanceCategories]
  rcases add_paths_mem _ _ _ h with h | h
  · rw [h]; simp [governanceCategories]
  rcases add_paths_mem _ _ _ h with h | h
  · rw [h]; simp [governanceCategories]
  simp at h

/-- A list's prefix passes the executable prefix test. -/
theorem take_isPrefixOf_self (l : List Char) (k : Nat) :
    (l.take k).isPrefixOf l = true := by
  induction l generalizing k with
  | nil => cases k <;> rfl
  | cons a l ih =>
      cases k with
      | zero => rfl
      | succ k =>
          rw [List.take_succ_cons]
          show (a == a && (l.take k).isPrefixOf l) = true
          rw [beq_self_eq_true, ih k]
          rfl

/-- The serialized state record is never the empty string. -/
theorem save_state_content_ne_empty (seq : Nat) (last_hash : Option String) :
    save_state_content seq last_hash ≠ "" := by
  rw [save_state_content, state_json, dumps]
  intro h
  have hdata := congrArg String.data h
  simp at hdata

/-- The truncated (just-opened) file is one of the crash-observable
contents of `save_state`. -/
theorem empty_mem_save_state_crash_contents (seq : Nat)
    (last_hash : Option String) : "" ∈ save_state_crash_contents seq last_hash := by
  rw [save_state_crash_contents]
  refine List.mem_map.mpr ⟨0, ?_, rfl⟩
  exact List.mem_range.mpr (Nat.succ_pos _)

/-- Row accounting of the `load_rows` loop: totals split into loaded rows,
skipped rows, and rows silently dropped for an empty normalized path. -/
theorem load_rows_loop_counts (input : List RawRow) :
    (load_rows_loop input).2.1 =
      (load_rows_loop input).1.length + (load_rows_loop input).2.2 +
        (input.filter (fun r =>
          (parse_ts r.ts).isSome && (normalize_path r.path == ""))).length := by
  induction input with
  | nil => rfl
  | cons r rest ih =>
      rcases hts : parse_ts r.ts with _ | t
      · simp only [load_rows_loop, hts, List.filter_cons]
        simp
        omega
      · by_cases hp : normalize_path r.path = ""
        · simp only [load_rows_loop, hts, hp, if_pos rfl, List.filter_cons]
          simp
          omega
        · simp only [load_rows_loop, hts, if_neg hp, List.filter_cons]
          simp [hp]
          omega

/-- The default-headed first element of a non-empty list is a member. -/
theorem headI_mem_self {α : Type} [Inhabited α] {l : List α} (h : l ≠ []) :
    l.headI ∈ l := by
  cases l with
  | nil => exact absurd rfl h
  | cons a l => exact List.mem_cons_self a l

/-! ## Claim theorems -/

/-- Claim C1: for any prior LedgerState with sequence N and last hash H, the
ledger assembled by `main` has `ledger_sequence = N + 1` and
`integrity.previous_ledger_hash_sha256 = H`, the persisted state holds the new
sequence and the new content hash (the hash of the document with the
content-hash field absent, which is also the hash stored in the emitted
document); when no prior state file exists, the first ledger has sequence 1
and a null previous hash. -/
theorem c1_chain_invariant (site generated export_window : String) (gm : Int)
    (istats sjson : Json) (N : Nat) (H : Option String) :
    (mainAssemble site generated export_window gm istats sjson
        (load_state (some ⟨some N, some H⟩))).1.get? "ledger_sequence" =
      some (.num (N + 1)) ∧
    ((mainAssemble site generated export_window gm istats sjson
        (load_state (some ⟨some N, some H⟩))).1.get? "integrity").bind
        (fun j => j.get? "previous_ledger_hash_sha256") = some (optStrJson H) ∧
    (mainAssemble site generated export_window gm istats sjson
        (load_state (some ⟨some N, some H⟩))).2 =
      (N + 1, some (canonical_json_hash
        (ledgerDoc site generated export_window gm istats sjson (N + 1) H none))) ∧
    ((mainAssemble site generated export_window gm istats sjson
        (load_state (some ⟨some N, some H⟩))).1.get? "integrity").bind
        (fun j => j.get? "content_hash_sha256") =
      some (.str (canonical_json_hash
        (ledgerDoc site generated export_window gm istats sjson (N + 1) H none))) ∧
    load_state none = (0, none) ∧
    (mainAssemble site generated export_window gm istats sjson
        (load_state none)).1.get? "ledger_sequence" = some (.num 1) ∧
    ((mainAssemble site generated export_window gm istats sjson
        (load_state none)).1.get? "integrity").bind
        (fun j => j.get? "previous_ledger_hash_sha256") = some Json.null :=
  ⟨rfl, rfl, rfl, rfl, rfl, rfl, rfl⟩

/-- Claim C2: `canonical_json_hash` is insensitive to key insertion order
(permuted objects with duplicate-free keys hash identically), and the ledger's
stored content hash is exactly the canonical hash of the document with the
content-hash field absent, hence reproducible by rehashing the same logical
content. -/
theorem c2_canonical_hash_order_invariant :
    (∀ l₁ l₂ : List (String × Json), l₁.Perm l₂ → (l₁.map Prod.fst).Nodup →
      canonical_json_hash (Json.obj l₁) = canonical_json_hash (Json.obj l₂)) ∧
    (∀ (site generated export_window : String) (gm : Int) (istats sjson : Json)
      (st : Nat × Option String),
      ((mainAssemble site generated export_window gm istats sjson st).1.get?
          "integrity").bind (fun j => j.get? "content_hash_sha256") =
        some (.str (canonical_json_hash (ledgerDoc site generated export_window
          gm istats sjson (st.1 + 1) st.2 none)))) := by
  constructor
  · intro l₁ l₂ hp hnd
    rw [canonical_json_hash, canonical_json_hash, dumps_obj_perm l₁ l₂ hp hnd]
  · intro site generated export_window gm istats sjson st
    rfl

/-- Witness for C2 at the spec's concrete dictionaries. -/
theorem c2_witness :
    canonical_json_hash (Json.obj [("b", .num 2), ("a", .num 1)]) =
      canonical_json_hash (Json.obj [("a", .num 1), ("b", .num 2)]) :=
  c2_canonical_hash_order_invariant.1 _ _
    (List.Perm.swap ("a", Json.num 1) ("b", Json.num 2) []) (by decide)

/-- Claim C3: every session emitted by `infer_sessions` with exactly one
request has confidence at most 0.55 and confidence level `low`, whatever
signals fire. -/
theorem c3_single_hit_capped (rows : List LogRow) (site_host salt : String)
    (gap_minutes : Int) (gov_exact_paths : List String)
    (path_to_category : List (String × String)) (s : Session)
    (hmem : s ∈ infer_sessions rows site_host salt gap_minutes gov_exact_paths
      path_to_category)
    (h1 : s.path.length = 1) :
    s.confidence ≤ 0.55 ∧ s.confidence_level = "low" := by
  obtain ⟨fp, chunk, hflush⟩ := exists_flush_of_mem rows site_host salt
    gap_minutes gov_exact_paths path_to_category s hmem
  obtain ⟨-, -, -, -, hcap⟩ := flushSession_spec gov_exact_paths
    path_to_category fp chunk s hflush
  obtain ⟨hc, hl⟩ := hcap h1
  refine ⟨?_, hl⟩
  calc s.confidence ≤ 11 / 20 := hc
    _ = 0.55 := by norm_num

set_option maxRecDepth 100000 in
/-- Witness for C3: the single-request scenario session. -/
theorem c3_witness :
    (infer_sessions [singleHitRow] "example.com" "test-salt" 30
        ["/.well-known/q-ledger.json"] []).headI.confidence ≤ 0.55 ∧
      (infer_sessions [singleHitRow] "example.com" "test-salt" 30
        ["/.well-known/q-ledger.json"] []).headI.confidence_level = "low" :=
  c3_single_hit_capped [singleHitRow] "example.com" "test-salt" 30
    ["/.well-known/q-ledger.json"] [] _ (headI_mem_self (by decide)) (by decide)

/-- Claim C4: every session emitted by `infer_sessions` has a confidence in
the closed interval [0.05, 0.95], whatever combination of signals and bonuses
applies. -/
theorem c4_confidence_bounds (rows : List LogRow) (site_host salt : String)
    (gap_minutes : Int) (gov_exact_paths : List String)
    (path_to_category : List (String × String)) (s : Session)
    (hmem : s ∈ infer_sessions rows site_host salt gap_minutes gov_exact_paths
      path_to_category) :
    0.05 ≤ s.confidence ∧ s.confidence ≤ 0.95 := by
  obtain ⟨fp, chunk, hflush⟩ := exists_flush_of_mem rows site_host salt
    gap_minutes gov_exact_paths path_to_category s hmem
  obtain ⟨-, -, hlo, hhi, -⟩ := flushSession_spec gov_exact_paths
    path_to_category fp chunk s hflush
  constructor
  · calc (0.05 : ℚ) = 1 / 20 := by norm_num
      _ ≤ s.confidence := hlo
  · calc s.confidence ≤ 19 / 20 := hhi
      _ = 0.95 := by norm_num

set_option maxRecDepth 100000 in
/-- Witness for C4: the single-request scenario session is inside the
clamp. -/
theorem c4_witness :
    0.05 ≤ (infer_sessions [singleHitRow] "example.com" "test-salt" 30
        ["/.well-known/q-ledger.json"] []).headI.confidence ∧
      (infer_sessions [singleHitRow] "example.com" "test-salt" 30
        ["/.well-known/q-ledger.json"] []).headI.confidence ≤ 0.95 :=
  c4_confidence_bounds [singleHitRow] "example.com" "test-salt" 30
    ["/.well-known/q-ledger.json"] [] _ (headI_mem_self (by decide))

/-- Claim C5: within one fingerprint group walked in timestamp order, a new
session starts exactly when the gap to the previous request of the running
session strictly exceeds the threshold (equality stays in the same session):
the chunks concatenate back to the walked requests, each chunk is non-empty
and within-gap throughout, and consecutive chunks are separated by a strict
violation; concretely, two same-fingerprint requests 45 minutes apart under a
30-minute threshold yield two sessions. -/
theorem c5_gap_boundary :
    (∀ (gap : Int) (items : List LogRow),
      (splitGroup gap items).flatten = items ∧
      (∀ c ∈ splitGroup gap items,
        c ≠ [] ∧ List.Chain' (fun a b => b.ts - a.ts ≤ gap) c) ∧
      List.Chain'
        (fun c₁ c₂ => ∀ a ∈ c₁.getLast?, ∀ b ∈ c₂.head?, gap < b.ts - a.ts)
        (splitGroup gap items)) ∧
    (infer_sessions [scenarioRowA, scenarioRowB] "example.com" "test-salt" 30
      [] []).length = 2 := by
  constructor
  · intro gap items
    cases items with
    | nil =>
        refine ⟨rfl, ?_, ?_⟩
        · intro c hc
          simp [splitGroup] at hc
        · rw [splitGroup]
          exact List.chain'_nil
    | cons r rest =>
        have h := walkGroup_spec gap rest [] r (List.chain'_singleton r)
        rw [splitGroup]
        exact ⟨h.1, h.2.1, h.2.2.1⟩
  · decide

set_option maxRecDepth 100000 in
/-- Witness for C5: the walk properties at a concrete one-request group,
together with the two-session scenario. -/
theorem c5_witness :
    (splitGroup (30 * 60 * 1000) [scenarioRowA]).flatten = [scenarioRowA] ∧
    [scenarioRowA] ≠ [] ∧
    List.Chain' (fun a b => b.ts - a.ts ≤ 30 * 60 * 1000) [scenarioRowA] ∧
    (infer_sessions [scenarioRowA, scenarioRowB] "example.com" "test-salt" 30
      [] []).length = 2 :=
  ⟨(c5_gap_boundary.1 (30 * 60 * 1000) [scenarioRowA]).1,
   ((c5_gap_boundary.1 (30 * 60 * 1000) [scenarioRowA]).2.1 [scenarioRowA]
      (by decide)).1,
   ((c5_gap_boundary.1 (30 * 60 * 1000) [scenarioRowA]).2.1 [scenarioRowA]
      (by decide)).2,
   c5_gap_boundary.2⟩

/-- Claim C6 (amended): the session list returned by `infer_sessions` is
sorted by window start ascending and contains no session with zero requests,
and — for the insertion-ordered group traversal Python dicts guarantee — it is
a deterministic function of the rows; the output is moreover independent of
the group iteration order whenever all emitted window starts are distinct, but
not in general (see the counterexample for equal starts). -/
theorem c6_output_ordering (rows : List LogRow) (site_host salt : String)
    (gap_minutes : Int) (gov_exact_paths : List String)
    (path_to_category : List (String × String)) :
    List.Sorted (fun a b : Session => a.window_start ≤ b.window_start)
      (infer_sessions rows site_host salt gap_minutes gov_exact_paths
        path_to_category) ∧
    (∀ s ∈ infer_sessions rows site_host salt gap_minutes gov_exact_paths
        path_to_category, s.path ≠ []) ∧
    (∀ (gap : Int) (groups₁ groups₂ : List (String × List LogRow)),
      groups₁.Perm groups₂ →
      ((processGroups gap gov_exact_paths path_to_category groups₁).map
        (fun s => s.window_start)).Nodup →
      processGroups gap gov_exact_paths path_to_category groups₁ =
        processGroups gap gov_exact_paths path_to_category groups₂) := by
  refine ⟨?_, ?_, ?_⟩
  · rw [infer_sessions, processGroups]
    haveI : IsTotal Session (fun a b => a.window_start ≤ b.window_start) :=
      ⟨fun a b => le_total _ _⟩
    haveI : IsTrans Session (fun a b => a.window_start ≤ b.window_start) :=
      ⟨fun a b c hab hbc => le_trans hab hbc⟩
    exact List.sorted_insertionSort _ _
  · intro s hs
    obtain ⟨fp, chunk, hflush⟩ := exists_flush_of_mem rows site_host salt
      gap_minutes gov_exact_paths path_to_category s hs
    exact (flushSession_spec gov_exact_paths path_to_category fp chunk s
      hflush).2.1
  · intro gap g₁ g₂ hp hnd
    rw [processGroups] at hnd ⊢
    rw [processGroups]
    have hbp : (g₁.flatMap (fun g =>
        (splitGroup gap (g.2.insertionSort (fun a b => a.ts ≤ b.ts))).filterMap
          (flushSession gov_exact_paths path_to_category g.1))).Perm
        (g₂.flatMap (fun g =>
        (splitGroup gap (g.2.insertionSort (fun a b => a.ts ≤ b.ts))).filterMap
          (flushSession gov_exact_paths path_to_category g.1))) := by
      rw [List.flatMap_def, List.flatMap_def]
      exact (hp.map _).flatten
    have hnd₁ : ((g₁.flatMap (fun g =>
        (splitGroup gap (g.2.insertionSort (fun a b => a.ts ≤ b.ts))).filterMap
          (flushSession gov_exact_paths path_to_category g.1))).map
        (fun s => s.window_start)).Nodup :=
      (((List.perm_insertionSort
        (fun a b : Session => a.window_start ≤ b.window_start) _).map
          (fun s => s.window_start)).nodup_iff).mp hnd
    exact insertionSort_key_eq (fun s => s.window_start) _ _ hbp hnd₁

set_option maxRecDepth 1000000 in
/-- Counterexample for C6 as stated: two iteration orders of the same two
fingerprint groups — legitimate hash-table contents — produce different
session lists, because the two sessions share the same window start and the
final sort is only keyed on it. -/
theorem c6_counterexample :
    [("fpA", [tieRowA]), ("fpB", [tieRowB])].Perm
      [("fpB", [tieRowB]), ("fpA", [tieRowA])] ∧
    processGroups (30 * 60 * 1000) [] []
        [("fpA", [tieRowA]), ("fpB", [tieRowB])] ≠
      processGroups (30 * 60 * 1000) [] []
        [("fpB", [tieRowB]), ("fpA", [tieRowA])] :=
  ⟨List.Perm.swap ("fpB", [tieRowB]) ("fpA", [tieRowA]) [], by decide⟩

set_option maxRecDepth 1000000 in
/-- Witness for C6: with distinct window starts, the two iteration orders
agree. -/
theorem c6_witness :
    processGroups (30 * 60 * 1000) [] []
        [("fpA", [tieRowA]), ("fpB", [scenarioRowB])] =
      processGroups (30 * 60 * 1000) [] []
        [("fpB", [scenarioRowB]), ("fpA", [tieRowA])] :=
  (c6_output_ordering [] "" "" 0 [] []).2.2 (30 * 60 * 1000) _ _
    (List.Perm.swap ("fpB", [scenarioRowB]) ("fpA", [tieRowA]) []) (by decide)

/-- Claim C7 (amended): for every input processed by `load_rows`,
`rows_total` equals `rows_loaded + rows_skipped` plus the number of rows whose
timestamp parses but whose normalized path is empty — those are silently
dropped without being counted as loaded or skipped, so the identity as
originally stated holds exactly when no such row occurs. -/
theorem c7_ingestion_counts (input : List RawRow) :
    (load_rows input).2.rows_total =
      (load_rows input).2.rows_loaded + (load_rows input).2.rows_skipped +
        (input.filter (fun r =>
          (parse_ts r.ts).isSome && (normalize_path r.path == ""))).length := by
  rw [load_rows]
  exact load_rows_loop_counts input

/-- Counterexample for C7 as stated: a CSV with one clean row and one row
whose path cell is empty has `rows_total = 2` but `rows_loaded = 1` and
`rows_skipped = 0`. -/
theorem c7_counterexample :
    ¬ ((load_rows [goodRow, emptyPathRow]).2.rows_total =
      (load_rows [goodRow, emptyPathRow]).2.rows_loaded +
        (load_rows [goodRow, emptyPathRow]).2.rows_skipped) := by
  decide

/-- Claim C8 (amended): `save_state` is a plain in-place overwrite, not a
write-temp-then-rename: when the write completes the file holds exactly the
serialized new state, but every prefix of the new serialization — including
the empty file left right after truncation — is a crash-observable
intermediate content, so a crash point need not show the old state or the
complete new state. -/
theorem c8_save_state_overwrite (seq : Nat) (last_hash : Option String) :
    (save_state_crash_contents seq last_hash).getLast? =
      some (save_state_content seq last_hash) ∧
    (∀ c ∈ save_state_crash_contents seq last_hash,
      c.data.isPrefixOf (save_state_content seq last_hash).data = true) ∧
    "" ∈ save_state_crash_contents seq last_hash ∧
    save_state_content seq last_hash ≠ "" := by
  refine ⟨?_, ?_, empty_mem_save_state_crash_contents seq last_hash,
    save_state_content_ne_empty seq last_hash⟩
  · rw [save_state_crash_contents, List.range_succ, List.map_append]
    simp only [List.map_cons, List.map_nil]
    rw [List.getLast?_concat]
    congr 1
    obtain ⟨d⟩ := save_state_content seq last_hash
    show String.mk (d.take d.length) = String.mk d
    rw [List.take_length]
  · intro c hc
    rw [save_state_crash_contents] at hc
    obtain ⟨n, -, hn⟩ := List.mem_map.mp hc
    rw [← hn]
    exact take_isPrefixOf_self _ n

/-- Witness for C8: at a concrete state record, the empty file is a
crash-observable prefix. -/
theorem c8_witness :
    "" ∈ save_state_crash_contents 2 (some "bb") ∧
    ("" : String).data.isPrefixOf (save_state_content 2 (some "bb")).data = true :=
  ⟨(c8_save_state_overwrite 2 (some "bb")).2.2.1,
   (c8_save_state_overwrite 2 (some "bb")).2.1 ""
     (c8_save_state_overwrite 2 (some "bb")).2.2.1⟩

/-- Counterexample for C8 as stated: during the overwrite for the new state
`(2, "bb")` over an old state `(1, "aa")`, the truncated (empty) file is
observable, and it is neither the old serialized state nor the complete new
one — the write is not atomic. -/
theorem c8_counterexample :
    ¬ (∀ c ∈ save_state_crash_contents 2 (some "bb"),
      c = save_state_content 1 (some "aa") ∨
        c = save_state_content 2 (some "bb")) := by
  intro h
  rcases h "" (empty_mem_save_state_crash_contents 2 (some "bb")) with h0 | h0
  · exact save_state_content_ne_empty 1 (some "aa") h0.symm
  · exact save_state_content_ne_empty 2 (some "bb") h0.symm

/-- Claim C9: the expected pattern used for sequence fidelity is the scope's
declared pattern exactly when the scope declares one and some session in the
ledger exhibits `content` after normalization, and the governance-only
fallback `[entrypoint, constraints, ontology]` otherwise; the choice is the
same for every session of the ledger (made once, not per session); and a
session matches exactly when the pattern is an ordered, not necessarily
contiguous, subsequence of its normalized (canon-remapped) category list. -/
theorem c9_fidelity_pattern_choice (scope : Option Scope)
    (sessions : List MSession) (s : MSession) :
    (session_fidelity scope sessions s).1 =
      (if (compute_expected_patterns scope).1 ≠ [] ∧
          observed_any_content scope sessions = true
        then (compute_expected_patterns scope).1
        else (compute_expected_patterns scope).2) ∧
    (compute_expected_patterns scope).2 =
      ["entrypoint", "constraints", "ontology"] ∧
    (∀ s' : MSession, (session_fidelity scope sessions s').1 =
      (session_fidelity scope sessions s).1) ∧
    ((session_fidelity scope sessions s).2 = true ↔
      List.Sublist ((session_fidelity scope sessions s).1)
        (map_canon_to_constraints_for_checks
          (normalize_categories_for_metrics (catsOf (scopeExactMap scope) s)))) := by
  have hpat : ∀ s' : MSession, (session_fidelity scope sessions s').1 =
      (if (compute_expected_patterns scope).1 ≠ [] ∧
          observed_any_content scope sessions = true
        then (compute_expected_patterns scope).1
        else (compute_expected_patterns scope).2) := by
    intro s'
    simp only [session_fidelity]
    by_cases hc : (compute_expected_patterns scope).1 ≠ [] ∧
        observed_any_content scope sessions = true
    · rw [if_pos hc, if_pos hc]
    · rw [if_neg hc, if_neg hc]
  refine ⟨hpat s, rfl, fun s' => (hpat s').trans (hpat s).symm, ?_⟩
  simp only [session_fidelity]
  by_cases hc : (compute_expected_patterns scope).1 ≠ [] ∧
      observed_any_content scope sessions = true
  · rw [if_pos hc]
    simpa using subsequence_match_iff _ _
  · rw [if_neg hc]
    simpa using subsequence_match_iff _ _

/-- Witness for C9: with no scope, the pattern used is the governance-only
fallback. -/
theorem c9_witness :
    (session_fidelity none [] witnessMSession).1 =
      ["entrypoint", "constraints", "ontology"] :=
  (c9_fidelity_pattern_choice none [] witnessMSession).1.trans (by decide)

/-- Claim C10: `build_category_map` only ever assigns the eleven governance
categories (never `content`), so a ledger whose sessions carry
`path_categories` produced by it never trips the content-observed scan, and
sequence fidelity is always computed against the governance-only fallback
pattern, never the scope's declared pattern. -/
theorem c10_no_content_category :
    (∀ (layers : List (String × List String)) (p c : String),
      (build_category_map layers).lookup p = some c →
      c ∈ governanceCategories) ∧
    (∀ (scope : Option Scope) (sessions : List MSession)
      (layers : List (String × List String)),
      (∀ s ∈ sessions, s.path_categories =
        s.path.map (fun p =>
          ((build_category_map layers).lookup p).getD "other")) →
      observed_any_content scope sessions = false ∧
      ∀ s : MSession, (session_fidelity scope sessions s).1 =
        ["entrypoint", "constraints", "ontology"]) := by
  have hval : ∀ (layers : List (String × List String)) (p c : String),
      (build_category_map layers).lookup p = some c →
      c ∈ governanceCategories :=
    fun layers p c h => build_category_map_mem layers (mem_of_lookup h)
  refine ⟨hval, ?_⟩
  intro scope sessions layers hcats
  have hobs : observed_any_content scope sessions = false := by
    rw [observed_any_content, List.any_eq_false]
    intro s hs
    intro hcont
    rw [List.contains] at hcont
    have hmem' := mem_normalize_categories (List.elem_iff.mp hcont)
    rw [catsOf] at hmem'
    by_cases hempty : s.path_categories.isEmpty
    · rw [if_pos hempty] at hmem'
      have hpc := hcats s hs
      rw [List.isEmpty_iff] at hempty
      rw [hempty] at hpc
      have hpath : s.path = [] := (List.map_eq_nil_iff).mp hpc.symm
      rw [hpath] at hmem'
      simp at hmem'
    · rw [if_neg hempty] at hmem'
      rw [hcats s hs] at hmem'
      obtain ⟨p, -, hp⟩ := List.mem_map.mp hmem'
      rcases hlook : (build_category_map layers).lookup p with _ | c
      · rw [hlook] at hp
        simp at hp
      · rw [hlook] at hp
        have hcg := hval layers p c hlook
        rw [Option.getD_some] at hp
        rw [hp] at hcg
        simp [governanceCategories] at hcg
  refine ⟨hobs, ?_⟩
  intro s
  have hneg : ¬ ((compute_expected_patterns scope).1 ≠ [] ∧
      observed_any_content scope sessions = true) := by
    intro hcc
    rw [hobs] at hcc
    exact Bool.false_ne_true hcc.2
  simp only [session_fidelity]
  rw [if_neg hneg]
  rfl

/-- Witness for C10: the concrete one-layer scope assigns `policy` (a
governance category), and a ledger classified through it shows no
`content`. -/
theorem c10_witness :
    "policy" ∈ governanceCategories ∧
    observed_any_content none [witnessMSession] = false :=
  ⟨c10_no_content_category.1 witnessLayers "/p" "policy" (by decide),
   (c10_no_content_category.2 none [witnessMSession] witnessLayers
     (by decide)).1⟩

end QLedger
